import Mathlib

/-!
Shallow embedding of the `PromptTriggerQuestionRepository` from
`backend-repository-prompt-trigger-questions.py` together with the data
model of `backend-models-prompt-trigger-questions.py`.

The database is modelled as an explicit `Store` value (a list of live
question rows, a list of history rows, and the auto-increment counters of
the two primary keys).  Each repository method becomes a pure function
from a `Store` (plus its arguments and the current clock value `now`,
standing for `datetime.utcnow()`) to a result paired with the new
`Store`.  Timestamps are natural numbers.
-/

/-- Live row of the `prompt_trigger_questions` table. -/
structure PromptTriggerQuestion where
  id : Nat
  question_text : String
  group_name : String
  source_shorthand : String
  version : Nat
  is_active : Bool
  created_at : Nat
  created_by : Option String
  updated_at : Nat
  updated_by : Option String
deriving DecidableEq

/-- Row of the `prompt_trigger_questions_history` table. -/
structure PromptTriggerQuestionHistory where
  id : Nat
  question_id : Nat
  question_text : String
  group_name : String
  source_shorthand : String
  version : Nat
  created_at : Nat
  created_by : Option String
  replaced_at : Nat
  replaced_by : Option String
  reason : Option String
deriving DecidableEq

/-- The database state: both tables plus the auto-increment id counters. -/
structure Store where
  questions : List PromptTriggerQuestion
  history : List PromptTriggerQuestionHistory
  nextQuestionId : Nat
  nextHistoryId : Nat
deriving DecidableEq

/-- Semantics of Python's `x or default` on an `Optional[str]` value:
`None` and the empty string are falsy, any other string is kept. -/
def str_or (x : Option String) (d : String) : String :=
  match x with
  | none => d
  | some s => if s == "" then d else s

/-- `get_question_by_id`: first row of `questions` whose `id` matches. -/
def get_question_by_id (st : Store) (question_id : Nat) :
    Option PromptTriggerQuestion :=
  st.questions.find? (fun p => p.id == question_id)

/-- `get_history_entry`: first row of `history` whose `id` matches. -/
def get_history_entry (st : Store) (history_id : Nat) :
    Option PromptTriggerQuestionHistory :=
  st.history.find? (fun h => h.id == history_id)

/-- The conjunction of the filters built in `get_all_questions`.
A `None` or empty-string filter argument is dropped (Python truthiness:
`if source_shorthand:` / `if group_name:`), and the `is_active` filter is
added only when `include_inactive` is false. -/
def question_passes (source_shorthand group_name : Option String)
    (include_inactive : Bool) (q : PromptTriggerQuestion) : Bool :=
  (include_inactive || q.is_active) &&
  (match source_shorthand with
   | none => true
   | some s => if s == "" then true else q.source_shorthand == s) &&
  (match group_name with
   | none => true
   | some g => if g == "" then true else q.group_name == g)

/-- The `order_by(group_name, id)` comparison. -/
def question_le (a b : PromptTriggerQuestion) : Bool :=
  if a.group_name = b.group_name then decide (a.id ≤ b.id)
  else decide (a.group_name < b.group_name)

/-- Insertion step of the ordering used by `get_all_questions`. -/
def insert_ordered (x : PromptTriggerQuestion) :
    List PromptTriggerQuestion → List PromptTriggerQuestion
  | [] => [x]
  | y :: ys => if question_le x y then x :: y :: ys else y :: insert_ordered x ys

/-- Sorting by `(group_name, id)` ascending (the `order_by` clause). -/
def order_by_group_id : List PromptTriggerQuestion → List PromptTriggerQuestion
  | [] => []
  | x :: xs => insert_ordered x (order_by_group_id xs)

/-- `get_all_questions`: filter by (optional) source, (optional) group and
active flag, then order by `(group_name, id)`. -/
def get_all_questions (st : Store) (source_shorthand group_name : Option String)
    (include_inactive : Bool) : List PromptTriggerQuestion :=
  order_by_group_id
    (st.questions.filter (question_passes source_shorthand group_name include_inactive))

/-- `create_question`: insert a fresh row with `version = 1`,
`is_active = True` and both audit pairs set from `created_by`/now. -/
def create_question (st : Store) (question_text group_name source_shorthand : String)
    (created_by : Option String) (now : Nat) :
    PromptTriggerQuestion × Store :=
  let question : PromptTriggerQuestion :=
    { id := st.nextQuestionId
      question_text := question_text
      group_name := group_name
      source_shorthand := source_shorthand
      version := 1
      is_active := true
      created_at := now
      created_by := created_by
      updated_at := now
      updated_by := created_by }
  (question,
    { st with
      questions := st.questions ++ [question]
      nextQuestionId := st.nextQuestionId + 1 })

/-- Replace the first row whose `id` matches (the session mutates the
object returned by `get_question_by_id` in place). -/
def replace_first (l : List PromptTriggerQuestion) (question_id : Nat)
    (q : PromptTriggerQuestion) : List PromptTriggerQuestion :=
  match l with
  | [] => []
  | p :: ps =>
    if p.id = question_id then q :: ps else p :: replace_first ps question_id q

/-- `update_question_with_history`: snapshot the current row into the
history table, apply the non-`None` field changes, bump `version` by one
and refresh the audit fields.  Returns `none` (and leaves the store
untouched) when the question id does not resolve. -/
def update_question_with_history (st : Store) (question_id : Nat)
    (updated_by : String) (question_text group_name source_shorthand : Option String)
    (reason : Option String) (now : Nat) :
    Option PromptTriggerQuestion × Store :=
  match get_question_by_id st question_id with
  | none => (none, st)
  | some question =>
    let history_entry : PromptTriggerQuestionHistory :=
      { id := st.nextHistoryId
        question_id := question.id
        question_text := question.question_text
        group_name := question.group_name
        source_shorthand := question.source_shorthand
        version := question.version
        created_at := question.created_at
        created_by := question.created_by
        replaced_at := now
        replaced_by := some updated_by
        reason := reason }
    let q1 :=
      match question_text with
      | some t => { question with question_text := t }
      | none => question
    let q2 :=
      match group_name with
      | some g => { q1 with group_name := g }
      | none => q1
    let q3 :=
      match source_shorthand with
      | some s => { q2 with source_shorthand := s }
      | none => q2
    let q4 := { q3 with version := q3.version + 1, updated_at := now,
                        updated_by := some updated_by }
    (some q4,
      { st with
        questions := replace_first st.questions question_id q4
        history := st.history ++ [history_entry]
        nextHistoryId := st.nextHistoryId + 1 })

/-- `toggle_active_status`: a true no-op when the status is unchanged,
otherwise snapshot into history (with a synthesized reason when none is
given) and flip `is_active` with a version bump. -/
def toggle_active_status (st : Store) (question_id : Nat) (is_active : Bool)
    (updated_by : String) (reason : Option String) (now : Nat) :
    Option PromptTriggerQuestion × Store :=
  match get_question_by_id st question_id with
  | none => (none, st)
  | some question =>
    if question.is_active == is_active then (some question, st)
    else
      let history_entry : PromptTriggerQuestionHistory :=
        { id := st.nextHistoryId
          question_id := question.id
          question_text := question.question_text
          group_name := question.group_name
          source_shorthand := question.source_shorthand
          version := question.version
          created_at := question.created_at
          created_by := question.created_by
          replaced_at := now
          replaced_by := some updated_by
          reason := some (str_or reason
            ((if is_active then "Activated" else "Deactivated") ++ " question")) }
      let q1 := { question with is_active := is_active,
                                version := question.version + 1,
                                updated_at := now,
                                updated_by := some updated_by }
      (some q1,
        { st with
          questions := replace_first st.questions question_id q1
          history := st.history ++ [history_entry]
          nextHistoryId := st.nextHistoryId + 1 })

/-- `restore_question_version`: resolve the history entry, reject a
missing id or one belonging to another question, then delegate a full
three-field overwrite to `update_question_with_history` with a default
reason of `Restored to version N`. -/
def restore_question_version (st : Store) (question_id history_id : Nat)
    (restored_by : String) (reason : Option String) (now : Nat) :
    Option PromptTriggerQuestion × Store :=
  match get_history_entry st history_id with
  | none => (none, st)
  | some history_entry =>
    if history_entry.question_id ≠ question_id then (none, st)
    else
      let restore_reason :=
        str_or reason ("Restored to version " ++ toString history_entry.version)
      update_question_with_history st question_id restored_by
        (some history_entry.question_text)
        (some history_entry.group_name)
        (some history_entry.source_shorthand)
        (some restore_reason) now

/-- `rename_group`: bulk-update `group_name` and the audit fields on every
question returned by the `group_name = old_name` query (active and
inactive); no history rows are written.  Returns the affected count. -/
def rename_group (st : Store) (old_name new_name : String)
    (updated_by : String) (now : Nat) : Nat × Store :=
  let questions := get_all_questions st none (some old_name) true
  (questions.length,
    { st with
      questions := st.questions.map (fun q =>
        if q ∈ questions then
          { q with group_name := new_name, updated_at := now,
                   updated_by := some updated_by }
        else q) })

/-- `delete_group`: either delete every question of the group (the
`ondelete=CASCADE` foreign key removes their history rows too) or move
them to the sentinel group `"Ungrouped"`.  Returns the affected count. -/
def delete_group (st : Store) (group_name : String) (delete_questions : Bool) :
    Nat × Store :=
  let questions := get_all_questions st none (some group_name) true
  if delete_questions then
    (questions.length,
      { st with
        questions := st.questions.filter (fun q => !(decide (q ∈ questions)))
        history := st.history.filter (fun h =>
          !(decide (h.question_id ∈ questions.map (fun q => q.id)))) })
  else
    (questions.length,
      { st with
        questions := st.questions.map (fun q =>
          if q ∈ questions then { q with group_name := "Ungrouped" } else q) })

/-- Result shape of `get_question_stats`. -/
structure QuestionStats where
  total_questions : Nat
  active_questions : Nat
  inactive_questions : Nat
  total_groups : Nat
  questions_by_source : List (String × Nat)
  questions_by_group : List (String × Nat)
deriving DecidableEq

/-- `get_question_stats`: total and active counts, active counts grouped
by source and by group (SQL `GROUP BY` over the active rows), inactive
count as the difference, and `total_groups = len(by_group)`. -/
def get_question_stats (st : Store) : QuestionStats :=
  let total_questions := st.questions.length
  let actives := st.questions.filter (fun q => q.is_active)
  let active_questions := actives.length
  let by_source :=
    ((actives.map (fun q => q.source_shorthand)).dedup).map (fun s =>
      (s, (actives.filter (fun q => q.source_shorthand == s)).length))
  let by_group :=
    ((actives.map (fun q => q.group_name)).dedup).map (fun g =>
      (g, (actives.filter (fun q => q.group_name == g)).length))
  { total_questions := total_questions
    active_questions := active_questions
    inactive_questions := total_questions - active_questions
    total_groups := by_group.length
    questions_by_source := by_source
    questions_by_group := by_group }

/-- History rows belonging to one question, projected to their version
numbers, in table order. -/
def histVersions (st : Store) (question_id : Nat) : List Nat :=
  (st.history.filter (fun h => h.question_id == question_id)).map
    (fun h => h.version)

/-- The schema's foreign-key constraint: every history row's
`question_id` (declared `ForeignKey(..., nullable=False)`) references an
existing question row. -/
def ReferentialIntegrity (st : Store) : Prop :=
  ∀ h ∈ st.history, ∃ q ∈ st.questions, q.id = h.question_id

/-- One tracked mutation aimed at a fixed question: a field edit via
`update_question_with_history`, a status change via
`toggle_active_status`, or a restoration via `restore_question_version`
(the three mutation paths of the repository that write history). -/
inductive Mutation where
  | edit (updated_by : String)
      (question_text group_name source_shorthand reason : Option String)
      (now : Nat)
  | toggle (is_active : Bool) (updated_by : String) (reason : Option String)
      (now : Nat)
  | restore (history_id : Nat) (restored_by : String) (reason : Option String)
      (now : Nat)

/-- Run one mutation against the store, keeping the resulting store. -/
def applyMutation (st : Store) (qid : Nat) : Mutation → Store
  | .edit ub qt gn ss r now =>
    (update_question_with_history st qid ub qt gn ss r now).2
  | .toggle b ub r now => (toggle_active_status st qid b ub r now).2
  | .restore hid rb r now => (restore_question_version st qid hid rb r now).2

/-- Run a sequence of mutations left to right. -/
def applySeq (st : Store) (qid : Nat) : List Mutation → Store
  | [] => st
  | m :: ms => applySeq (applyMutation st qid m) qid ms

/-- A mutation is *tracked* when it actually writes a history row: the
question resolves, a toggle really changes `is_active`, and a restore's
history entry resolves and belongs to the question. -/
def Tracked (st : Store) (qid : Nat) : Mutation → Prop
  | .edit _ _ _ _ _ _ => ∃ q, get_question_by_id st qid = some q
  | .toggle b _ _ _ =>
    ∃ q, get_question_by_id st qid = some q ∧ q.is_active ≠ b
  | .restore hid _ _ _ =>
    (∃ q, get_question_by_id st qid = some q) ∧
      ∃ h, get_history_entry st hid = some h ∧ h.question_id = qid

/-- Every mutation of the sequence is tracked at its point of execution. -/
def TrackedSeq : Store → Nat → List Mutation → Prop
  | _, _, [] => True
  | st, qid, m :: ms =>
    Tracked st qid m ∧ TrackedSeq (applyMutation st qid m) qid ms

/-- Sample mutation sequence: two successive edits. -/
def msW : List Mutation :=
  [Mutation.edit "bob" (some "Q2") none none none 1,
   Mutation.edit "carol" none (some "H") none none 2]

/-- Sample live row used to evaluate the theorems on concrete data. -/
def qA : PromptTriggerQuestion :=
  { id := 1
    question_text := "Q1"
    group_name := "G"
    source_shorthand := "A"
    version := 2
    is_active := true
    created_at := 0
    created_by := some "alice"
    updated_at := 1
    updated_by := some "alice" }

/-- Sample history row (version 1 of `qA`). -/
def hA : PromptTriggerQuestionHistory :=
  { id := 1
    question_id := 1
    question_text := "Q0"
    group_name := "G"
    source_shorthand := "K"
    version := 1
    created_at := 0
    created_by := some "alice"
    replaced_at := 1
    replaced_by := some "alice"
    reason := none }

/-- Sample store: one question with one history row. -/
def stA : Store :=
  { questions := [qA], history := [hA], nextQuestionId := 2, nextHistoryId := 2 }

/-! ### Basic lemmas about the lookup and replacement helpers -/

lemma get_question_by_id_id {st : Store} {qid : Nat} {q : PromptTriggerQuestion}
    (h : get_question_by_id st qid = some q) : q.id = qid := by
  have := List.find?_some h
  simpa using this

lemma find?_replace_first {l : List PromptTriggerQuestion} {qid : Nat}
    {q q' : PromptTriggerQuestion}
    (h : l.find? (fun p => p.id == qid) = some q) (hq' : q'.id = qid) :
    (replace_first l qid q').find? (fun p => p.id == qid) = some q' := by
  induction l with
  | nil => simp at h
  | cons p ps ih =>
    by_cases hp : p.id = qid
    · simp [replace_first, hp, List.find?_cons_of_pos, hq']
    · rw [List.find?_cons_of_neg _ (by simpa using hp)] at h
      simp only [replace_first, if_neg hp]
      rw [List.find?_cons_of_neg _ (by simpa using hp)]
      exact ih h

lemma get_question_by_id_of_mem {st : Store} {qid : Nat}
    (h : ∃ q ∈ st.questions, q.id = qid) :
    ∃ q, get_question_by_id st qid = some q := by
  rcases h with ⟨q, hmem, hid⟩
  have : (st.questions.find? (fun p => p.id == qid)).isSome := by
    rw [List.find?_isSome]
    exact ⟨q, hmem, by simpa using hid⟩
  rcases Option.isSome_iff_exists.mp this with ⟨q', hq'⟩
  exact ⟨q', hq'⟩

lemma get_question_by_id_none {st : Store} {qid : Nat}
    (h : ∀ p ∈ st.questions, p.id ≠ qid) :
    get_question_by_id st qid = none := by
  rw [get_question_by_id, List.find?_eq_none]
  intro p hp
  simpa using h p hp

/-! ### Characterization of `update_question_with_history` -/

lemma update_question_with_history_not_found {st : Store} {qid : Nat}
    {ub : String} {qt gn ss r : Option String} {now : Nat}
    (h : get_question_by_id st qid = none) :
    update_question_with_history st qid ub qt gn ss r now = (none, st) := by
  rw [update_question_with_history, h]

lemma update_question_with_history_found {st : Store} {qid : Nat}
    {ub : String} {qt gn ss r : Option String} {now : Nat}
    {q : PromptTriggerQuestion}
    (h : get_question_by_id st qid = some q) :
    update_question_with_history st qid ub qt gn ss r now =
      (some { id := q.id
              question_text := qt.getD q.question_text
              group_name := gn.getD q.group_name
              source_shorthand := ss.getD q.source_shorthand
              version := q.version + 1
              is_active := q.is_active
              created_at := q.created_at
              created_by := q.created_by
              updated_at := now
              updated_by := some ub },
       { st with
         questions := replace_first st.questions qid
           { id := q.id
             question_text := qt.getD q.question_text
             group_name := gn.getD q.group_name
             source_shorthand := ss.getD q.source_shorthand
             version := q.version + 1
             is_active := q.is_active
             created_at := q.created_at
             created_by := q.created_by
             updated_at := now
             updated_by := some ub }
         history := st.history ++
           [{ id := st.nextHistoryId
              question_id := q.id
              question_text := q.question_text
              group_name := q.group_name
              source_shorthand := q.source_shorthand
              version := q.version
              created_at := q.created_at
              created_by := q.created_by
              replaced_at := now
              replaced_by := some ub
              reason := r }]
         nextHistoryId := st.nextHistoryId + 1 }) := by
  rw [update_question_with_history, h]
  cases qt <;> cases gn <;> cases ss <;> rfl

/-! ### C1: `update_question_with_history` -/

/-- C1: for an existing question, `update_question_with_history` persists a
history entry holding the pre-change `question_text`, `group_name`,
`source_shorthand`, the current `version`, the original
`created_at`/`created_by`, with `replaced_by` the acting user and the given
reason; it then applies exactly the non-absent field changes (absent fields
keep their prior values), increments `version` by exactly 1, sets
`updated_at`/`updated_by`, and returns the updated question.  When no
question has the given id it returns `none` and leaves the store
unchanged. -/
theorem update_question_with_history_spec (st : Store) (qid : Nat)
    (ub : String) (qt gn ss r : Option String) (now : Nat) :
    ((∀ p ∈ st.questions, p.id ≠ qid) →
      update_question_with_history st qid ub qt gn ss r now = (none, st)) ∧
    (∀ q, get_question_by_id st qid = some q →
      update_question_with_history st qid ub qt gn ss r now =
        (some { id := q.id
                question_text := qt.getD q.question_text
                group_name := gn.getD q.group_name
                source_shorthand := ss.getD q.source_shorthand
                version := q.version + 1
                is_active := q.is_active
                created_at := q.created_at
                created_by := q.created_by
                updated_at := now
                updated_by := some ub },
         { st with
           questions := replace_first st.questions qid
             { id := q.id
               question_text := qt.getD q.question_text
               group_name := gn.getD q.group_name
               source_shorthand := ss.getD q.source_shorthand
               version := q.version + 1
               is_active := q.is_active
               created_at := q.created_at
               created_by := q.created_by
               updated_at := now
               updated_by := some ub }
           history := st.history ++
             [{ id := st.nextHistoryId
                question_id := q.id
                question_text := q.question_text
                group_name := q.group_name
                source_shorthand := q.source_shorthand
                version := q.version
                created_at := q.created_at
                created_by := q.created_by
                replaced_at := now
                replaced_by := some ub
                reason := r }]
           nextHistoryId := st.nextHistoryId + 1 })) := by
  constructor
  · intro hnone
    exact update_question_with_history_not_found (get_question_by_id_none hnone)
  · intro q hq
    exact update_question_with_history_found hq

/-- Witness for C1 on the sample store: updating the text of question 1. -/
theorem update_question_with_history_spec_witness :
    update_question_with_history stA 1 "bob" (some "Q2") none none none 5 =
      (some { id := 1
              question_text := "Q2"
              group_name := "G"
              source_shorthand := "A"
              version := 3
              is_active := true
              created_at := 0
              created_by := some "alice"
              updated_at := 5
              updated_by := some "bob" },
       { questions := [{ id := 1
                         question_text := "Q2"
                         group_name := "G"
                         source_shorthand := "A"
                         version := 3
                         is_active := true
                         created_at := 0
                         created_by := some "alice"
                         updated_at := 5
                         updated_by := some "bob" }]
         history := [hA,
           { id := 2
             question_id := 1
             question_text := "Q1"
             group_name := "G"
             source_shorthand := "A"
             version := 2
             created_at := 0
             created_by := some "alice"
             replaced_at := 5
             replaced_by := some "bob"
             reason := none }]
         nextQuestionId := 2
         nextHistoryId := 3 }) :=
  (update_question_with_history_spec stA 1 "bob" (some "Q2") none none none 5).2
    qA rfl

/-! ### C5: toggling to the current status is a true no-op -/

/-- C5: calling `toggle_active_status` with the question's current
`is_active` value returns the question unchanged and the store unchanged —
no history row and no version bump. -/
theorem toggle_same_status_noop (st : Store) (qid : Nat) (b : Bool)
    (ub : String) (r : Option String) (now : Nat)
    (q : PromptTriggerQuestion)
    (hq : get_question_by_id st qid = some q) (hb : q.is_active = b) :
    toggle_active_status st qid b ub r now = (some q, st) := by
  simp only [toggle_active_status, hq, hb, beq_self_eq_true, if_true]

/-- Witness for C5 on the sample store. -/
theorem toggle_same_status_noop_witness :
    toggle_active_status stA 1 true "bob" none 5 = (some qA, stA) :=
  toggle_same_status_noop stA 1 true "bob" none 5 qA rfl rfl

/-! ### C6: an empty field-change set is not short-circuited -/

/-- C6: `update_question_with_history` with all three content fields
absent still appends a history snapshot of the current content and
version, still increments `version` by 1 and still refreshes
`updated_at`/`updated_by`. -/
theorem empty_update_still_snapshots (st : Store) (qid : Nat) (ub : String)
    (r : Option String) (now : Nat) (q : PromptTriggerQuestion)
    (hq : get_question_by_id st qid = some q) :
    (update_question_with_history st qid ub none none none r now).1 =
      some { q with version := q.version + 1, updated_at := now,
                    updated_by := some ub } ∧
    (update_question_with_history st qid ub none none none r now).2.history =
      st.history ++
        [{ id := st.nextHistoryId
           question_id := q.id
           question_text := q.question_text
           group_name := q.group_name
           source_shorthand := q.source_shorthand
           version := q.version
           created_at := q.created_at
           created_by := q.created_by
           replaced_at := now
           replaced_by := some ub
           reason := r }] := by
  rw [update_question_with_history_found hq]
  exact ⟨rfl, rfl⟩

/-- Witness for C6 on the sample store. -/
theorem empty_update_still_snapshots_witness :
    (update_question_with_history stA 1 "bob" none none none none 5).1 =
      some { qA with version := 3, updated_at := 5, updated_by := some "bob" } ∧
    (update_question_with_history stA 1 "bob" none none none none 5).2.history =
      [hA,
       { id := 2
         question_id := 1
         question_text := "Q1"
         group_name := "G"
         source_shorthand := "A"
         version := 2
         created_at := 0
         created_by := some "alice"
         replaced_at := 5
         replaced_by := some "bob"
         reason := none }] :=
  empty_update_still_snapshots stA 1 "bob" none 5 qA rfl

/-! ### Restore-from-history: C3, C4, C10 -/

lemma restore_delegates {st : Store} {qid hid : Nat} {rb : String}
    {r : Option String} {now : Nat} {h : PromptTriggerQuestionHistory}
    (hh : get_history_entry st hid = some h) (hm : h.question_id = qid) :
    restore_question_version st qid hid rb r now =
      update_question_with_history st qid rb
        (some h.question_text) (some h.group_name) (some h.source_shorthand)
        (some (str_or r ("Restored to version " ++ toString h.version))) now := by
  simp only [restore_question_version, hh, hm, ne_eq, not_true_eq_false,
    if_false]

lemma restore_found_some {st : Store} {qid hid : Nat} {rb : String}
    {r : Option String} {now : Nat} {h : PromptTriggerQuestionHistory}
    (hri : ReferentialIntegrity st)
    (hh : get_history_entry st hid = some h) (hm : h.question_id = qid) :
    ∃ q', (restore_question_version st qid hid rb r now).1 = some q' := by
  have hmem : h ∈ st.history := List.mem_of_find?_eq_some hh
  obtain ⟨q, hqmem, hqid⟩ := hri h hmem
  obtain ⟨q', hq'⟩ := get_question_by_id_of_mem ⟨q, hqmem, by rw [hqid, hm]⟩
  rw [restore_delegates hh hm, update_question_with_history_found hq']
  exact ⟨_, rfl⟩

/-- C3: when the history entry resolves and belongs to the question,
`restore_question_version` overwrites all three content fields with the
snapshot's values, sets `version` to the current version plus one (never
the snapshot's version), appends a history row snapshotting the
pre-restore state, and records the reason, which defaults to
`Restored to version N` when none is given. -/
theorem restore_question_version_spec (st : Store) (qid hid : Nat)
    (rb : String) (r : Option String) (now : Nat)
    (h : PromptTriggerQuestionHistory) (q : PromptTriggerQuestion)
    (hh : get_history_entry st hid = some h) (hm : h.question_id = qid)
    (hq : get_question_by_id st qid = some q) :
    restore_question_version st qid hid rb r now =
      (some { id := q.id
              question_text := h.question_text
              group_name := h.group_name
              source_shorthand := h.source_shorthand
              version := q.version + 1
              is_active := q.is_active
              created_at := q.created_at
              created_by := q.created_by
              updated_at := now
              updated_by := some rb },
       { st with
         questions := replace_first st.questions qid
           { id := q.id
             question_text := h.question_text
             group_name := h.group_name
             source_shorthand := h.source_shorthand
             version := q.version + 1
             is_active := q.is_active
             created_at := q.created_at
             created_by := q.created_by
             updated_at := now
             updated_by := some rb }
         history := st.history ++
           [{ id := st.nextHistoryId
              question_id := q.id
              question_text := q.question_text
              group_name := q.group_name
              source_shorthand := q.source_shorthand
              version := q.version
              created_at := q.created_at
              created_by := q.created_by
              replaced_at := now
              replaced_by := some rb
              reason := some (str_or r
                ("Restored to version " ++ toString h.version)) }]
         nextHistoryId := st.nextHistoryId + 1 }) ∧
    (r = none →
      str_or r ("Restored to version " ++ toString h.version) =
        "Restored to version " ++ toString h.version) := by
  constructor
  · rw [restore_delegates hh hm, update_question_with_history_found hq]
    rfl
  · intro hr
    rw [hr]
    rfl

/-- Witness for C3 on the sample store: restoring question 1 to its
version-1 snapshot bumps the version to 3 and keeps the snapshot text. -/
theorem restore_question_version_spec_witness :
    restore_question_version stA 1 1 "bob" none 5 =
      (some { id := 1
              question_text := "Q0"
              group_name := "G"
              source_shorthand := "K"
              version := 3
              is_active := true
              created_at := 0
              created_by := some "alice"
              updated_at := 5
              updated_by := some "bob" },
       { questions := [{ id := 1
                         question_text := "Q0"
                         group_name := "G"
                         source_shorthand := "K"
                         version := 3
                         is_active := true
                         created_at := 0
                         created_by := some "alice"
                         updated_at := 5
                         updated_by := some "bob" }]
         history := [hA,
           { id := 2
             question_id := 1
             question_text := "Q1"
             group_name := "G"
             source_shorthand := "A"
             version := 2
             created_at := 0
             created_by := some "alice"
             replaced_at := 5
             replaced_by := some "bob"
             reason := some "Restored to version 1" }]
         nextQuestionId := 2
         nextHistoryId := 3 }) ∧
    ((none : Option String) = none →
      str_or none ("Restored to version " ++ toString hA.version) =
        "Restored to version " ++ toString hA.version) :=
  restore_question_version_spec stA 1 1 "bob" none 5 hA qA rfl rfl rfl

/-- C4: under the schema's referential integrity,
`restore_question_version` answers `none` exactly when the history id does
not resolve or the resolved entry belongs to a different question, and in
that case the store is left unchanged. -/
theorem restore_not_found_iff (st : Store) (qid hid : Nat) (rb : String)
    (r : Option String) (now : Nat) (hri : ReferentialIntegrity st) :
    ((restore_question_version st qid hid rb r now).1 = none ↔
      get_history_entry st hid = none ∨
        ∃ h, get_history_entry st hid = some h ∧ h.question_id ≠ qid) ∧
    ((restore_question_version st qid hid rb r now).1 = none →
      (restore_question_version st qid hid rb r now).2 = st) := by
  cases e : get_history_entry st hid with
  | none =>
    have hres : restore_question_version st qid hid rb r now = (none, st) := by
      simp only [restore_question_version, e]
    rw [hres]
    exact ⟨by simp [e], fun _ => rfl⟩
  | some h =>
    by_cases hm : h.question_id = qid
    · obtain ⟨q', hq'⟩ := restore_found_some hri e hm
      constructor
      · rw [hq']
        simp only [reduceCtorEq, false_iff, e]
        rintro (habs | ⟨h', hh', hne⟩)
        · exact absurd habs (by simp)
        · obtain rfl : h = h' := by simpa using hh'
          exact hne hm
      · intro habs
        rw [hq'] at habs
        exact absurd habs (by simp)
    · have hres : restore_question_version st qid hid rb r now = (none, st) := by
        simp only [restore_question_version, e, hm, ne_eq, not_false_eq_true,
          if_true]
      rw [hres]
      exact ⟨Iff.intro (fun _ => Or.inr ⟨h, rfl, hm⟩) (fun _ => rfl),
        fun _ => rfl⟩

/-- Witness for C4 on the sample store: history id 7 does not exist. -/
theorem restore_not_found_iff_witness :
    ((restore_question_version stA 1 7 "bob" none 5).1 = none ↔
      get_history_entry stA 7 = none ∨
        ∃ h, get_history_entry stA 7 = some h ∧ h.question_id ≠ 1) ∧
    ((restore_question_version stA 1 7 "bob" none 5).1 = none →
      (restore_question_version stA 1 7 "bob" none 5).2 = stA) :=
  restore_not_found_iff stA 1 7 "bob" none 5 (by simp only [ReferentialIntegrity]; decide)

/-- C10: under referential integrity, once the history entry resolves and
belongs to the given question, the delegated update cannot hit its
not-found branch: `restore_question_version` never answers `none`. -/
theorem restore_found_never_none (st : Store) (qid hid : Nat) (rb : String)
    (r : Option String) (now : Nat) (h : PromptTriggerQuestionHistory)
    (hri : ReferentialIntegrity st)
    (hh : get_history_entry st hid = some h) (hm : h.question_id = qid) :
    (restore_question_version st qid hid rb r now).1 ≠ none := by
  obtain ⟨q', hq'⟩ := restore_found_some hri hh hm
  rw [hq']
  exact Option.some_ne_none q'

/-- Witness for C10 on the sample store. -/
theorem restore_found_never_none_witness :
    (restore_question_version stA 1 1 "bob" none 5).1 ≠ none :=
  restore_found_never_none stA 1 1 "bob" none 5 hA (by simp only [ReferentialIntegrity]; decide) rfl rfl

/-! ### C8: statistics identities -/

/-- C8: `get_question_stats` always reports
`inactive_questions = total_questions - active_questions`, and
`total_groups` equals the number of distinct group names among the active
questions (the key count of the by-group mapping). -/
theorem get_question_stats_identities (st : Store) :
    (get_question_stats st).inactive_questions =
      (get_question_stats st).total_questions -
        (get_question_stats st).active_questions ∧
    (get_question_stats st).total_groups =
      ((st.questions.filter (fun q => q.is_active)).map
        (fun q => q.group_name)).dedup.length ∧
    (get_question_stats st).total_groups =
      (get_question_stats st).questions_by_group.length := by
  refine ⟨rfl, ?_, rfl⟩
  simp [get_question_stats]

/-! ### Ordering lemmas for `get_all_questions` -/

lemma length_insert_ordered (x : PromptTriggerQuestion)
    (l : List PromptTriggerQuestion) :
    (insert_ordered x l).length = l.length + 1 := by
  induction l with
  | nil => rfl
  | cons y ys ih =>
    simp only [insert_ordered]
    split
    · simp
    · simp [ih]

lemma mem_insert_ordered {a x : PromptTriggerQuestion}
    {l : List PromptTriggerQuestion} :
    a ∈ insert_ordered x l ↔ a = x ∨ a ∈ l := by
  induction l with
  | nil => simp [insert_ordered]
  | cons y ys ih =>
    simp only [insert_ordered]
    split
    · simp
    · simp [ih]
      tauto

lemma length_order_by_group_id (l : List PromptTriggerQuestion) :
    (order_by_group_id l).length = l.length := by
  induction l with
  | nil => rfl
  | cons x xs ih => simp [order_by_group_id, length_insert_ordered, ih]

lemma mem_order_by_group_id {a : PromptTriggerQuestion}
    {l : List PromptTriggerQuestion} :
    a ∈ order_by_group_id l ↔ a ∈ l := by
  induction l with
  | nil => simp [order_by_group_id]
  | cons x xs ih =>
    simp [order_by_group_id, mem_insert_ordered, ih]

lemma mem_get_all_questions {st : Store} {s g : Option String} {inc : Bool}
    {q : PromptTriggerQuestion} :
    q ∈ get_all_questions st s g inc ↔
      q ∈ st.questions ∧ question_passes s g inc q = true := by
  rw [get_all_questions, mem_order_by_group_id, List.mem_filter]

lemma question_passes_group_nonempty {old : String} (h : old ≠ "")
    (q : PromptTriggerQuestion) :
    question_passes none (some old) true q = (q.group_name == old) := by
  simp only [question_passes, Bool.true_or, Bool.true_and]
  rw [if_neg (by simpa using h)]

/-! ### C7: `rename_group` -/

/-- C7: for a non-empty old group name, `rename_group` renames every
question (active or inactive) whose `group_name` is the old name, sets its
`updated_at`/`updated_by`, returns the number of such questions, writes no
history rows, and leaves every `version` unchanged. -/
theorem rename_group_spec (st : Store) (old_name new_name ub : String)
    (now : Nat) (hold : old_name ≠ "") :
    (rename_group st old_name new_name ub now).1 =
      (st.questions.filter (fun q => q.group_name == old_name)).length ∧
    (rename_group st old_name new_name ub now).2.history = st.history ∧
    (rename_group st old_name new_name ub now).2.questions =
      st.questions.map (fun q =>
        if q.group_name == old_name then
          { q with group_name := new_name, updated_at := now,
                   updated_by := some ub }
        else q) ∧
    (rename_group st old_name new_name ub now).2.questions.map
        (fun q => q.version) =
      st.questions.map (fun q => q.version) := by
  have hpass := question_passes_group_nonempty hold
  have hmap : (rename_group st old_name new_name ub now).2.questions =
      st.questions.map (fun q =>
        if q.group_name == old_name then
          { q with group_name := new_name, updated_at := now,
                   updated_by := some ub }
        else q) := by
    simp only [rename_group]
    apply List.map_congr_left
    intro q hq
    by_cases hg : q.group_name = old_name
    · rw [if_pos (mem_get_all_questions.mpr
        ⟨hq, by rw [hpass]; simpa using hg⟩), if_pos (by simpa using hg)]
    · rw [if_neg (fun hmem => hg (by
        simpa [hpass] using (mem_get_all_questions.mp hmem).2)),
        if_neg (by simpa using hg)]
  refine ⟨?_, rfl, hmap, ?_⟩
  · simp only [rename_group, get_all_questions, length_order_by_group_id]
    exact congrArg List.length (List.filter_congr (fun q _ => hpass q))
  · rw [hmap, List.map_map]
    apply List.map_congr_left
    intro q _
    by_cases hg : q.group_name = old_name <;> simp [hg]

/-- Witness for C7 on the sample store: renaming group `G` to `H`. -/
theorem rename_group_spec_witness :
    (rename_group stA "G" "H" "bob" 5).1 =
      (stA.questions.filter (fun q => q.group_name == "G")).length ∧
    (rename_group stA "G" "H" "bob" 5).2.history = stA.history ∧
    (rename_group stA "G" "H" "bob" 5).2.questions =
      stA.questions.map (fun q =>
        if q.group_name == "G" then
          { q with group_name := "H", updated_at := 5,
                   updated_by := some "bob" }
        else q) ∧
    (rename_group stA "G" "H" "bob" 5).2.questions.map (fun q => q.version) =
      stA.questions.map (fun q => q.version) :=
  rename_group_spec stA "G" "H" "bob" 5 (by decide)

/-! ### C9: empty-string filters are dropped by truthiness -/

lemma question_passes_empty_group (q : PromptTriggerQuestion) :
    question_passes none (some "") true q = true := by
  simp [question_passes]

lemma mem_get_all_empty_group {st : Store} {q : PromptTriggerQuestion}
    (hq : q ∈ st.questions) : q ∈ get_all_questions st none (some "") true :=
  mem_get_all_questions.mpr ⟨hq, question_passes_empty_group q⟩

/-- C9: an empty-string source or group filter is dropped by the Python
truthiness check, so `get_all_questions` behaves as if the filter were
absent; consequently `rename_group` with old name `""` renames every
question in the store, and `delete_group` with group name `""` deletes
(resp. ungroups) every question in the store — not the questions whose
group name is the empty string. -/
theorem empty_string_filter_dropped (st : Store) (s g : Option String)
    (inc : Bool) (new_name ub : String) (now : Nat) :
    get_all_questions st (some "") g inc = get_all_questions st none g inc ∧
    get_all_questions st s (some "") inc = get_all_questions st s none inc ∧
    (rename_group st "" new_name ub now).1 = st.questions.length ∧
    (rename_group st "" new_name ub now).2.questions =
      st.questions.map (fun q =>
        { q with group_name := new_name, updated_at := now,
                 updated_by := some ub }) ∧
    (delete_group st "" true).1 = st.questions.length ∧
    (delete_group st "" true).2.questions = [] ∧
    (delete_group st "" false).1 = st.questions.length ∧
    (delete_group st "" false).2.questions =
      st.questions.map (fun q => { q with group_name := "Ungrouped" }) := by
  have hlen : (get_all_questions st none (some "") true).length =
      st.questions.length := by
    rw [get_all_questions, length_order_by_group_id,
      List.filter_eq_self.mpr (fun q _ => question_passes_empty_group q),
      ]
  refine ⟨rfl, rfl, ?_, ?_, ?_, ?_, ?_, ?_⟩
  · simpa only [rename_group] using hlen
  · simp only [rename_group]
    apply List.map_congr_left
    intro q hq
    rw [if_pos (mem_get_all_empty_group hq)]
  · simp only [delete_group, if_true]
    exact hlen
  · simp only [delete_group, if_true]
    rw [List.filter_eq_nil_iff]
    intro q hq
    simp [mem_get_all_empty_group hq]
  · simp only [delete_group, if_false]
    exact hlen
  · simp only [delete_group, if_false]
    apply List.map_congr_left
    intro q hq
    rw [if_pos (mem_get_all_empty_group hq)]

/-! ### C2: versions and history of a fresh question under tracked
mutations -/

lemma toggle_found_change {st : Store} {qid : Nat} {b : Bool} {ub : String}
    {r : Option String} {now : Nat} {q : PromptTriggerQuestion}
    (hq : get_question_by_id st qid = some q) (hb : q.is_active ≠ b) :
    toggle_active_status st qid b ub r now =
      (some { q with is_active := b, version := q.version + 1,
                     updated_at := now, updated_by := some ub },
       { st with
         questions := replace_first st.questions qid
           { q with is_active := b, version := q.version + 1,
                    updated_at := now, updated_by := some ub }
         history := st.history ++
           [{ id := st.nextHistoryId
              question_id := q.id
              question_text := q.question_text
              group_name := q.group_name
              source_shorthand := q.source_shorthand
              version := q.version
              created_at := q.created_at
              created_by := q.created_by
              replaced_at := now
              replaced_by := some ub
              reason := some (str_or r
                ((if b then "Activated" else "Deactivated") ++
                  " question")) }]
         nextHistoryId := st.nextHistoryId + 1 }) := by
  simp only [toggle_active_status, hq]
  rw [if_neg (by simpa using hb)]

lemma update_step {st : Store} {qid : Nat} {ub : String}
    {qt gn ss r : Option String} {now : Nat} {q : PromptTriggerQuestion}
    (hq : get_question_by_id st qid = some q) :
    ∃ q', get_question_by_id
        (update_question_with_history st qid ub qt gn ss r now).2 qid =
          some q' ∧
      q'.version = q.version + 1 ∧
      histVersions (update_question_with_history st qid ub qt gn ss r now).2
          qid =
        histVersions st qid ++ [q.version] := by
  have hid := get_question_by_id_id hq
  rw [update_question_with_history_found hq]
  refine ⟨{ id := q.id
            question_text := qt.getD q.question_text
            group_name := gn.getD q.group_name
            source_shorthand := ss.getD q.source_shorthand
            version := q.version + 1
            is_active := q.is_active
            created_at := q.created_at
            created_by := q.created_by
            updated_at := now
            updated_by := some ub }, ?_, rfl, ?_⟩
  · simp only [get_question_by_id]
    exact find?_replace_first hq hid
  · simp [histVersions, List.filter_append, hid]

lemma toggle_step {st : Store} {qid : Nat} {b : Bool} {ub : String}
    {r : Option String} {now : Nat} {q : PromptTriggerQuestion}
    (hq : get_question_by_id st qid = some q) (hb : q.is_active ≠ b) :
    ∃ q', get_question_by_id (toggle_active_status st qid b ub r now).2 qid =
        some q' ∧
      q'.version = q.version + 1 ∧
      histVersions (toggle_active_status st qid b ub r now).2 qid =
        histVersions st qid ++ [q.version] := by
  have hid := get_question_by_id_id hq
  rw [toggle_found_change hq hb]
  refine ⟨{ q with is_active := b
                   version := q.version + 1
                   updated_at := now
                   updated_by := some ub }, ?_, rfl, ?_⟩
  · simp only [get_question_by_id]
    exact find?_replace_first hq hid
  · simp [histVersions, List.filter_append, hid]

lemma tracked_step {st : Store} {qid : Nat} {m : Mutation}
    {q : PromptTriggerQuestion}
    (hq : get_question_by_id st qid = some q) (ht : Tracked st qid m) :
    ∃ q', get_question_by_id (applyMutation st qid m) qid = some q' ∧
      q'.version = q.version + 1 ∧
      histVersions (applyMutation st qid m) qid =
        histVersions st qid ++ [q.version] := by
  cases m with
  | edit ub qt gn ss r now =>
    simp only [applyMutation]
    exact update_step hq
  | toggle b ub r now =>
    obtain ⟨q'', hq'', hb⟩ := ht
    rw [hq] at hq''
    obtain rfl : q = q'' := by injection hq''
    simp only [applyMutation]
    exact toggle_step hq hb
  | restore hid rb r now =>
    obtain ⟨-, h, hh, hm⟩ := ht
    simp only [applyMutation, restore_delegates hh hm]
    exact update_step hq

lemma tracked_seq_invariant (ms : List Mutation) :
    ∀ (st : Store) (qid : Nat) (q : PromptTriggerQuestion),
      get_question_by_id st qid = some q →
      1 ≤ q.version →
      histVersions st qid = List.range' 1 (q.version - 1) →
      TrackedSeq st qid ms →
      ∃ q', get_question_by_id (applySeq st qid ms) qid = some q' ∧
        q'.version = q.version + ms.length ∧
        histVersions (applySeq st qid ms) qid =
          List.range' 1 (q'.version - 1) := by
  induction ms with
  | nil =>
    intro st qid q hq _ hh _
    exact ⟨q, hq, by simp, hh⟩
  | cons m ms ih =>
    intro st qid q hq h1 hh htr
    obtain ⟨ht, htr'⟩ := htr
    obtain ⟨q1, hq1, hv1, hh1⟩ := tracked_step hq ht
    obtain ⟨k, hk⟩ : ∃ k, q.version = k + 1 := ⟨q.version - 1, by omega⟩
    have hh1' : histVersions (applyMutation st qid m) qid =
        List.range' 1 (q1.version - 1) := by
      rw [hh1, hh, hv1, hk]
      simp [List.range'_concat, Nat.add_comm]
    obtain ⟨q', hq', hv', hh'⟩ :=
      ih (applyMutation st qid m) qid q1 hq1 (by omega) hh1' htr'
    refine ⟨q', hq', ?_, hh'⟩
    rw [hv', hv1]
    simp only [List.length_cons]
    omega

lemma find?_id_append_singleton {l : List PromptTriggerQuestion}
    {q : PromptTriggerQuestion} {n : Nat}
    (h : ∀ p ∈ l, p.id ≠ n) (hq : q.id = n) :
    (l ++ [q]).find? (fun p => p.id == n) = some q := by
  induction l with
  | nil => simp [List.find?, hq]
  | cons p ps ih =>
    rw [List.cons_append,
      List.find?_cons_of_neg _ (by simpa using h p (List.mem_cons_self p ps))]
    exact ih (fun x hx => h x (List.mem_cons_of_mem _ hx))

lemma create_question_fresh {st0 : Store} {qt gn ss : String}
    {cb : Option String} {now : Nat}
    (hfq : ∀ p ∈ st0.questions, p.id ≠ st0.nextQuestionId)
    (hfh : ∀ h ∈ st0.history, h.question_id ≠ st0.nextQuestionId) :
    get_question_by_id (create_question st0 qt gn ss cb now).2
        st0.nextQuestionId =
      some (create_question st0 qt gn ss cb now).1 ∧
    histVersions (create_question st0 qt gn ss cb now).2
        st0.nextQuestionId = [] := by
  constructor
  · simp only [create_question, get_question_by_id]
    exact find?_id_append_singleton hfq rfl
  · simp only [create_question, histVersions, List.map_eq_nil_iff]
    rw [List.filter_eq_nil_iff]
    intro h hmem
    simpa using hfh h hmem

/-- C2: starting from a freshly created question (`version = 1`, no
history rows) and applying any sequence of `N` tracked mutations to it,
the live `version` is `N + 1`, exactly `N` history rows exist for the
question, their versions are exactly `1, ..., N` with no gaps, and the
live version exceeds every version in the history set. -/
theorem fresh_question_version_history (st0 : Store)
    (qt gn ss : String) (cb : Option String) (now0 : Nat)
    (ms : List Mutation)
    (hfq : ∀ p ∈ st0.questions, p.id ≠ st0.nextQuestionId)
    (hfh : ∀ h ∈ st0.history, h.question_id ≠ st0.nextQuestionId)
    (htr : TrackedSeq (create_question st0 qt gn ss cb now0).2
      st0.nextQuestionId ms) :
    ∃ q, get_question_by_id
        (applySeq (create_question st0 qt gn ss cb now0).2
          st0.nextQuestionId ms) st0.nextQuestionId = some q ∧
      q.version = ms.length + 1 ∧
      (histVersions (applySeq (create_question st0 qt gn ss cb now0).2
          st0.nextQuestionId ms) st0.nextQuestionId).length = ms.length ∧
      histVersions (applySeq (create_question st0 qt gn ss cb now0).2
          st0.nextQuestionId ms) st0.nextQuestionId =
        List.range' 1 ms.length ∧
      ∀ v ∈ histVersions (applySeq (create_question st0 qt gn ss cb now0).2
          st0.nextQuestionId ms) st0.nextQuestionId, v < q.version := by
  obtain ⟨hget, hhist⟩ := create_question_fresh hfq hfh
  obtain ⟨q, hq, hv, hh⟩ :=
    tracked_seq_invariant ms _ _ _ hget (by exact Nat.le_refl 1)
      (by rw [hhist]; rfl) htr
  have h1 : (create_question st0 qt gn ss cb now0).1.version = 1 := rfl
  have hvers : q.version = ms.length + 1 := by
    rw [h1] at hv
    omega
  have hrange : histVersions (applySeq (create_question st0 qt gn ss cb now0).2
      st0.nextQuestionId ms) st0.nextQuestionId = List.range' 1 ms.length := by
    rw [hh, hvers]
    simp
  refine ⟨q, hq, hvers, ?_, hrange, ?_⟩
  · rw [hrange]
    simp
  · intro v hv'
    rw [hrange] at hv'
    rw [List.mem_range'_1] at hv'
    omega

/-- Witness for C2 on the sample store: create a second question and
apply two tracked edits; the final version is 3 with history versions
`[1, 2]`. -/
theorem fresh_question_version_history_witness :
    ∃ q, get_question_by_id
        (applySeq (create_question stA "Q1" "G" "A" (some "alice") 0).2
          stA.nextQuestionId msW) stA.nextQuestionId = some q ∧
      q.version = msW.length + 1 ∧
      (histVersions (applySeq (create_question stA "Q1" "G" "A" (some "alice") 0).2
          stA.nextQuestionId msW) stA.nextQuestionId).length = msW.length ∧
      histVersions (applySeq (create_question stA "Q1" "G" "A" (some "alice") 0).2
          stA.nextQuestionId msW) stA.nextQuestionId =
        List.range' 1 msW.length ∧
      ∀ v ∈ histVersions (applySeq (create_question stA "Q1" "G" "A" (some "alice") 0).2
          stA.nextQuestionId msW) stA.nextQuestionId, v < q.version :=
  fresh_question_version_history stA "Q1" "G" "A" (some "alice") 0 msW
    (by decide) (by decide) ⟨⟨_, rfl⟩, ⟨_, rfl⟩, trivial⟩
